import Mathlib

/-!
Shallow embedding of `src/fetch_btc_data.py` (btc-spot-downloader).

The program is a single-pass pipeline: load prior price series, optionally
backfill history from a credentialed API, fetch the current price, merge by
date, write CSV files and a redirect page.  External effects (HTTP responses,
environment variable, filesystem probe results) are passed in as explicit
parameters; Python exceptions that escape the program are modelled by the
`Except`-error side of each function, and `sys.exit(1)` by a dedicated
abort value.

Prices travel through the program unmodified (no arithmetic is performed on
them), so they are modelled as `Rat`; the float-to-text codec used by the
CSV library is an external collaborator and is kept at value granularity.
-/

namespace BtcSpot

/-- Calendar date at day granularity, as `datetime.date`: year, month, day. -/
structure Date where
  year : Nat
  month : Nat
  day : Nat
deriving DecidableEq

/-- One (date, price) observation, a row of the dataframe. -/
structure PricePoint where
  date : Date
  price : Rat
deriving DecidableEq

/-- A dataframe with columns `date, price`: an ordered list of rows. -/
abbrev PriceSeries := List PricePoint

/-- Order on dates: year, then month, then day (the order of `datetime.date`). -/
def Date.le (a b : Date) : Prop :=
  a.year < b.year ∨
    (a.year = b.year ∧ (a.month < b.month ∨ (a.month = b.month ∧ a.day ≤ b.day)))

instance : DecidableRel Date.le := fun a b => by
  unfold Date.le
  exact inferInstance

/-- Strict version of the date order: `a` is before `b` and distinct from it. -/
def Date.lt (a b : Date) : Prop :=
  Date.le a b ∧ a ≠ b

instance : DecidableRel Date.lt := fun a b => by
  unfold Date.lt
  exact inferInstance

/-- Row comparison used by `df.sort_values('date')`: compare the date fields. -/
def byDate (a b : PricePoint) : Prop :=
  Date.le a.date b.date

instance : DecidableRel byDate := fun a b => by
  unfold byDate Date.le
  exact inferInstance

instance : IsTotal PricePoint byDate :=
  ⟨by
    intro a b
    unfold byDate Date.le
    omega⟩

instance : IsTrans PricePoint byDate :=
  ⟨by
    intro a b c h1 h2
    unfold byDate Date.le at h1 h2 ⊢
    omega⟩

/-- Model of `df.sort_values('date')`: some permutation of the rows that is
sorted by date.  (pandas defaults to an unstable quicksort, so the order of
rows with equal dates is unspecified; we fix insertion sort as one such
sorted permutation, and every theorem that could be sensitive to the order
among equal dates is stated so that it holds for any sorted permutation.) -/
def sortByDate (s : PriceSeries) : PriceSeries :=
  List.insertionSort byDate s

/-- Lines 175-178 of `main`: `today = ...` is already extracted by the caller;
`if today in df_existing['date'].values: df_existing = df_existing[df_existing['date'] != today]`.
Removes every row dated `t` when at least one exists, otherwise leaves the
frame unchanged. -/
def dedupToday (existing : PriceSeries) (t : Date) : PriceSeries :=
  if existing.any (fun r => decide (r.date = t)) then
    existing.filter (fun r => !decide (r.date = t))
  else existing

/-- Lines 172-184 of `main`, the merge step, as a function of the two frames:
`today = df_today['date'].iloc[0]` (an `IndexError`, modelled `none`, when
`incoming` is empty), drop existing rows dated `today`, concatenate, sort by
date.  In every run of the program `incoming` is the single-row frame built
by `fetch_current_btc_price`. -/
def mergeSeries (existing incoming : PriceSeries) : Option PriceSeries :=
  match incoming.head? with
  | none => none
  | some first => some (sortByDate (dedupToday existing first.date ++ incoming))

/-- Python-abort outcomes of a run: `exitOne` is `sys.exit(1)`, `uncaught` is
an exception that no `except` clause catches (the interpreter terminates with
a traceback and a non-zero exit code). -/
inductive RunAbort where
  | exitOne : RunAbort
  | uncaught : RunAbort
deriving DecidableEq

/-- Function `load_existing_data`: try the published remote copy, else the
local file when it exists, else the empty frame.  Each parameter is the
outcome of one read-and-parse attempt (`pd.read_csv` plus the
`pd.to_datetime(...).dt.date` conversion); `Except.error` is any exception,
which the function catches. -/
def load_existing_data (remote : Except Unit PriceSeries) (localExists : Bool)
    (localRead : Except Unit PriceSeries) : PriceSeries :=
  match remote with
  | .ok df => df
  | .error _ =>
    if localExists then
      match localRead with
      | .ok df => df
      | .error _ => []
    else []

/-- Function `fetch_current_btc_price`, over the outcome of the HTTP call.
`Except.error` is a `requests.exceptions.RequestException` (transport,
timeout, or `raise_for_status`): the function prints and calls `sys.exit(1)`.
`Except.ok none` is a well-formed response whose JSON lacks
`data['bitcoin']['usd']`: the resulting `KeyError` is caught by no handler.
`today` is `datetime.now().date()`. -/
def fetch_current_btc_price (today : Date) (resp : Except Unit (Option Rat)) :
    Except RunAbort PricePoint :=
  match resp with
  | .error _ => .error .exitOne
  | .ok none => .error .uncaught
  | .ok (some price) => .ok ⟨today, price⟩

/-- Truthiness of `api_key` in `if not api_key:`: `os.environ.get` returning
`None`, or the empty string, are both falsy. -/
def falsyKey : Option String → Bool
  | none => true
  | some k => decide (k = "")

/-- Model of `pd.to_datetime(ms, unit='ms').dt.date`: an epoch-milliseconds
timestamp truncated to its UTC calendar day (proleptic Gregorian,
civil-from-days algorithm).  Many timestamps map to one date. -/
def civilFromDays (z : Nat) : Date :=
  let zz := z + 719468
  let era := zz / 146097
  let doe := zz % 146097
  let yoe := (doe - doe / 1460 + doe / 36524 - doe / 146096) / 365
  let y := yoe + era * 400
  let doy := doe - (365 * yoe + yoe / 4 - yoe / 100)
  let mp := (5 * doy + 2) / 153
  let d := doy - (153 * mp + 2) / 5 + 1
  let m := if mp < 10 then mp + 3 else mp - 9
  if m ≤ 2 then ⟨y + 1, m, d⟩ else ⟨y, m, d⟩

/-- Conversion applied to each `prices` timestamp in the bulk fetch. -/
def tsToDate (ms : Nat) : Date :=
  civilFromDays (ms / 86400000)

/-- Function `fetch_btc_history_coingecko_pro`.  `apiKey` is
`os.environ.get('COINGECKO_API_KEY')`; without a truthy key the function
returns `None` ("cannot backfill").  `resp` is the outcome of the HTTP call:
`Except.error` is a `RequestException` (transport, timeout, HTTP status, or
JSON-decode failure), caught by the `except` clause, returning `None`;
`Except.ok none` is a decoded response without a well-formed `data['prices']`
list, whose `KeyError`/`ValueError` no handler catches (the process aborts);
`Except.ok (some prices)` is a list of `[timestamp-ms, price]` pairs, turned
into rows by truncating each timestamp to its date.  No deduplication by
date is performed. -/
def fetch_btc_history_coingecko_pro (apiKey : Option String)
    (resp : Except Unit (Option (List (Nat × Rat)))) :
    Except RunAbort (Option PriceSeries) :=
  if falsyKey apiKey then .ok none
  else
    match resp with
    | .error _ => .ok none
    | .ok none => .error .uncaught
    | .ok (some prices) => .ok (some (prices.map (fun tp => ⟨tsToDate tp.1, tp.2⟩)))

/-- Character for a single decimal digit. -/
def digitChar (n : Nat) : Char :=
  Char.ofNat (48 + n)

/-- Two-digit zero-padded decimal rendering (`%m`, `%d`). -/
def pad2 (n : Nat) : List Char :=
  [digitChar (n / 10 % 10), digitChar (n % 10)]

/-- Four-digit zero-padded decimal rendering (`%Y`). -/
def pad4 (n : Nat) : List Char :=
  [digitChar (n / 1000 % 10), digitChar (n / 100 % 10), digitChar (n / 10 % 10),
    digitChar (n % 10)]

/-- ISO rendering `YYYY-MM-DD` of a date, as `str(datetime.date)` produces
when the CSV cell is written. -/
def renderDate (d : Date) : List Char :=
  pad4 d.year ++ ('-' :: pad2 d.month) ++ ('-' :: pad2 d.day)

/-- Rendering `YYYYMMDD` used by `datetime.now().strftime('%Y%m%d')` for the
dated filename. -/
def render8 (d : Date) : List Char :=
  pad4 d.year ++ pad2 d.month ++ pad2 d.day

/-- Numeric value of a decimal digit character, if it is one. -/
def digitVal (c : Char) : Option Nat :=
  if 48 ≤ c.toNat ∧ c.toNat ≤ 57 then some (c.toNat - 48) else none

/-- Parse of one `YYYY-MM-DD` cell, modelling `pd.to_datetime(text).dt.date`:
ten characters with dashes in the expected places, digits elsewhere, and the
month and day in calendar range; anything else raises (yielding `none`). -/
def parseDate (cs : List Char) : Option Date :=
  match cs with
  | [y3, y2, y1, y0, s1, m1, m0, s2, d1, d0] =>
    if s1 = '-' ∧ s2 = '-' then
      match digitVal y3, digitVal y2, digitVal y1, digitVal y0,
          digitVal m1, digitVal m0, digitVal d1, digitVal d0 with
      | some a, some b, some c, some e, some f, some g, some h, some i =>
        let yv := ((a * 10 + b) * 10 + c) * 10 + e
        let mv := f * 10 + g
        let dv := h * 10 + i
        if 1 ≤ mv ∧ mv ≤ 12 ∧ 1 ≤ dv ∧ dv ≤ 31 then some ⟨yv, mv, dv⟩ else none
      | _, _, _, _, _, _, _, _ => none
    else none
  | _ => none

/-- Dates a `datetime.date` cell can actually hold and render as above. -/
def validDate (d : Date) : Prop :=
  d.year ≤ 9999 ∧ 1 ≤ d.month ∧ d.month ≤ 12 ∧ 1 ≤ d.day ∧ d.day ≤ 31

instance (d : Date) : Decidable (validDate d) := by
  unfold validDate
  exact inferInstance

/-- A written CSV file: the header line and one `(date-cell, price)` row per
dataframe row.  The price cell is kept at value granularity: the
float-to-text codec of `to_csv`/`read_csv` is an external primitive of the
CSV library (spec section 1) and round-trips the value. -/
structure Csv where
  header : List String
  rows : List (String × Rat)
deriving DecidableEq

/-- Content written by `df.to_csv(path, index=False)` for a `date,price`
frame. -/
def seriesCsv (df : PriceSeries) : Csv :=
  ⟨["date", "price"], df.map (fun r => (String.mk (renderDate r.date), r.price))⟩

/-- All-or-nothing parse of the rows: `pd.to_datetime` on the date column
raises on the first malformed cell, failing the whole load attempt. -/
def parseRows : List (String × Rat) → Option PriceSeries
  | [] => some []
  | c :: rest =>
    match parseDate c.1.data, parseRows rest with
    | some d, some tl => some (⟨d, c.2⟩ :: tl)
    | _, _ => none

/-- Loader-side parse of a CSV file, as `pd.read_csv` followed by
`df['date'] = pd.to_datetime(df['date']).dt.date`: a missing `date,price`
header or a malformed row raises, which the loader treats as a failed
attempt. -/
def parse_csv (c : Csv) : Except Unit PriceSeries :=
  if c.header = ["date", "price"] then
    match parseRows c.rows with
    | some s => .ok s
    | none => .error ()
  else .error ()

/-- Function `save_csv`: the dated filename `btc_spot_YYYYMMDD.csv` built
from the current date, and the file content, written both to the dated file
and to `latest.csv`. -/
def save_csv (df : PriceSeries) (now : Date) : String × Csv :=
  ("btc_spot_" ++ String.mk (render8 now) ++ ".csv", seriesCsv df)

/-- Function `update_index_html`: the full text written to `index.html`,
with the latest filename interpolated twice. -/
def update_index_html (latest_filename : String) : String :=
  "<!DOCTYPE html>\n<html lang=\"en\">\n<head>\n    <meta charset=\"UTF-8\">\n" ++
  "    <meta name=\"viewport\" content=\"width=device-width, initial-scale=1.0\">\n" ++
  "    <meta http-equiv=\"refresh\" content=\"0; url=data/latest.csv\">\n" ++
  "    <title>BTC Spot Price Data</title>\n</head>\n<body>\n" ++
  "    <h1>BTC Spot Price Historical Data</h1>\n" ++
  "    <p>Redirecting to the latest data...</p>\n" ++
  "    <p>If not redirected, <a href=\"data/latest.csv\">click here for the latest data</a></p>\n" ++
  "    <p>Latest file: <a href=\"data/" ++ latest_filename ++ "\">" ++ latest_filename ++
  "</a></p>\n" ++
  "    <p>Source code available on <a href=\"https://github.com/olddatasets/btc-spot-downloader\">GitHub</a></p>\n" ++
  "</body>\n</html>"

/-- Everything a successful run writes: the dated CSV (name and content),
`latest.csv`, `index.html`, and the merged series those files serialize. -/
structure RunOutputs where
  filename : String
  dated : Csv
  latest : Csv
  indexHtml : String
  series : PriceSeries

/-- Lines 156-168 of `main`: the baseline series before the current-point
fetch — the loaded series, replaced by the bulk backfill when it loaded
empty and the backfill succeeds.  An uncaught exception inside the backfill
aborts the run here. -/
def baseline_series (remote : Except Unit PriceSeries) (localExists : Bool)
    (localRead : Except Unit PriceSeries) (apiKey : Option String)
    (histResp : Except Unit (Option (List (Nat × Rat)))) :
    Except RunAbort PriceSeries :=
  let df_existing := load_existing_data remote localExists localRead
  if df_existing.isEmpty then
    match fetch_btc_history_coingecko_pro apiKey histResp with
    | .error a => .error a
    | .ok (some h) => .ok h
    | .ok none => .ok df_existing
  else .ok df_existing

/-- Function `main`: load, optional backfill, fetch the current point, merge,
write the dated CSV, `latest.csv` and `index.html`.  The error side is a run
that terminated early (having written none of the outputs). -/
def main (remote : Except Unit PriceSeries) (localExists : Bool)
    (localRead : Except Unit PriceSeries) (apiKey : Option String)
    (histResp : Except Unit (Option (List (Nat × Rat)))) (today : Date)
    (currentResp : Except Unit (Option Rat)) : Except RunAbort RunOutputs :=
  match baseline_series remote localExists localRead apiKey histResp with
  | .error a => .error a
  | .ok df_existing =>
    match fetch_current_btc_price today currentResp with
    | .error a => .error a
    | .ok pt =>
      match mergeSeries df_existing [pt] with
      | none => .error .uncaught
      | some df =>
        let fc := save_csv df today
        .ok ⟨fc.1, fc.2, fc.2, update_index_html fc.1, df⟩

/-- Date column of a series. -/
def datesOf (s : PriceSeries) : List Date :=
  s.map (fun r => r.date)

/-- Price at a date: the price of the first row carrying that date, if any. -/
def priceAt (s : PriceSeries) (d : Date) : Option Rat :=
  ((s.filter (fun r => decide (r.date = d))).head?).map (fun r => r.price)

/-- Merged series a run persisted, when it completed. -/
def writtenSeries : Except RunAbort RunOutputs → Option PriceSeries
  | .ok o => some o.series
  | .error _ => none

/-- Date column of the persisted series; empty for an aborted run. -/
def writtenDates : Except RunAbort RunOutputs → List Date
  | .ok o => datesOf o.series
  | .error _ => []

/-- Process exit code: 0 for a completed run, 1 for `sys.exit(1)` and for an
uncaught exception alike. -/
def exitCode : Except RunAbort RunOutputs → Nat
  | .ok _ => 0
  | .error _ => 1

/-! ## Helper lemmas about the merge step -/

/-- Every row surviving `dedupToday existing t` is dated other than `t`: the
filter branch removes the rows dated `t`, and the no-filter branch runs only
when no row is dated `t`. -/
theorem dedupToday_date_ne (b : PriceSeries) (t : Date) :
    ∀ x ∈ dedupToday b t, x.date ≠ t := by
  intro x hx
  unfold dedupToday at hx
  split at hx
  · have h := List.mem_filter.mp hx
    simpa using h.2
  · rename_i h
    rw [Bool.not_eq_true, List.any_eq_false] at h
    simpa using h x hx

/-- The dedup step only removes rows. -/
theorem dedupToday_sublist (b : PriceSeries) (t : Date) :
    List.Sublist (dedupToday b t) b := by
  unfold dedupToday
  split
  · exact List.filter_sublist b
  · exact List.Sublist.refl b

/-- No row dated `t` remains after the dedup step. -/
theorem filter_dedupToday (b : PriceSeries) (t : Date) :
    (dedupToday b t).filter (fun r => decide (r.date = t)) = [] :=
  List.filter_eq_nil_iff.mpr (fun x hx => by simpa using dedupToday_date_ne b t x hx)

/-- The merge step on the single-row frame the program builds. -/
theorem mergeSeries_single (b : PriceSeries) (pt : PricePoint) :
    mergeSeries b [pt] = some (sortByDate (dedupToday b pt.date ++ [pt])) :=
  rfl

/-- After merging in the single current-day row, the rows dated with that
day are exactly that row: the dedup step removed every older one, and
sorting only permutes. -/
theorem merge_filter_eq (b : PriceSeries) (pt : PricePoint) :
    (sortByDate (dedupToday b pt.date ++ [pt])).filter
        (fun r => decide (r.date = pt.date)) = [pt] := by
  have hperm := List.perm_insertionSort byDate (dedupToday b pt.date ++ [pt])
  have h2 := hperm.filter (fun r => decide (r.date = pt.date))
  rw [List.filter_append, filter_dedupToday] at h2
  simp only [List.filter_cons, List.filter_nil, decide_True, if_true] at h2
  exact List.perm_singleton.mp (by simpa using h2)

/-- Membership in the date column of the dedup step. -/
theorem mem_datesOf_dedupToday (b : PriceSeries) (t d : Date) :
    d ∈ datesOf (dedupToday b t) ↔ d ∈ datesOf b ∧ d ≠ t := by
  unfold dedupToday
  split
  · simp only [datesOf, List.mem_map, List.mem_filter]
    constructor
    · rintro ⟨x, ⟨hx, hxt⟩, rfl⟩
      exact ⟨⟨x, hx, rfl⟩, by simpa using hxt⟩
    · rintro ⟨⟨x, hx, rfl⟩, hdt⟩
      exact ⟨x, ⟨hx, by simpa using hdt⟩, rfl⟩
  · rename_i h
    rw [Bool.not_eq_true, List.any_eq_false] at h
    simp only [datesOf, List.mem_map]
    constructor
    · rintro ⟨x, hx, rfl⟩
      exact ⟨⟨x, hx, rfl⟩, by simpa using h x hx⟩
    · rintro ⟨⟨x, hx, rfl⟩, _⟩
      exact ⟨x, hx, rfl⟩

/-- When the baseline has pairwise-distinct dates, the merged output is
strictly ascending in its date column. -/
theorem merge_strict_sorted (b : PriceSeries) (pt : PricePoint)
    (h : (datesOf b).Nodup) :
    List.Pairwise Date.lt (datesOf (sortByDate (dedupToday b pt.date ++ [pt]))) := by
  have hsorted : List.Pairwise byDate (sortByDate (dedupToday b pt.date ++ [pt])) :=
    List.sorted_insertionSort byDate _
  have hle : List.Pairwise Date.le (datesOf (sortByDate (dedupToday b pt.date ++ [pt]))) :=
    List.pairwise_map.mpr hsorted
  have hperm : List.Perm (sortByDate (dedupToday b pt.date ++ [pt]))
      (dedupToday b pt.date ++ [pt]) := List.perm_insertionSort _ _
  have hnd : (datesOf (sortByDate (dedupToday b pt.date ++ [pt]))).Nodup := by
    unfold datesOf
    rw [(hperm.map (fun r => r.date)).nodup_iff]
    have heq : List.map (fun r : PricePoint => r.date) (dedupToday b pt.date ++ [pt]) =
        List.map (fun r : PricePoint => r.date) (dedupToday b pt.date) ++ [pt.date] := by
      simp
    rw [heq, List.nodup_append]
    refine ⟨((dedupToday_sublist b pt.date).map _).nodup h, by simp, ?_⟩
    intro a ha hb
    simp only [List.mem_singleton] at hb
    subst hb
    obtain ⟨x, hx, hxd⟩ := List.mem_map.mp ha
    exact dedupToday_date_ne b pt.date x hx hxd
  exact (hle.and hnd).imp (fun hab => hab)

/-! ## Helper lemmas about the CSV boundary -/

/-- A decimal digit character decodes back to the digit it came from. -/
theorem digitVal_digitChar (k : Nat) (h : k < 10) :
    digitVal (digitChar k) = some k := by
  interval_cases k <;> rfl

/-- Parsing inverts rendering on any date a `datetime.date` cell can hold. -/
theorem parse_render (d : Date) (hv : validDate d) :
    parseDate (renderDate d) = some d := by
  obtain ⟨hy, hm1, hm2, hd1, hd2⟩ := hv
  have e1 := digitVal_digitChar (d.year / 1000 % 10) (by omega)
  have e2 := digitVal_digitChar (d.year / 100 % 10) (by omega)
  have e3 := digitVal_digitChar (d.year / 10 % 10) (by omega)
  have e4 := digitVal_digitChar (d.year % 10) (by omega)
  have e5 := digitVal_digitChar (d.month / 10 % 10) (by omega)
  have e6 := digitVal_digitChar (d.month % 10) (by omega)
  have e7 := digitVal_digitChar (d.day / 10 % 10) (by omega)
  have e8 := digitVal_digitChar (d.day % 10) (by omega)
  have hyv : ((d.year / 1000 % 10 * 10 + d.year / 100 % 10) * 10 + d.year / 10 % 10) * 10 +
      d.year % 10 = d.year := by omega
  have hmv : d.month / 10 % 10 * 10 + d.month % 10 = d.month := by omega
  have hdv : d.day / 10 % 10 * 10 + d.day % 10 = d.day := by omega
  simp only [renderDate, pad4, pad2, List.cons_append, List.nil_append, parseDate, e1, e2, e3,
    e4, e5, e6, e7, e8, hyv, hmv, hdv]
  rw [if_pos (⟨trivial, trivial⟩ : True ∧ True), if_pos ⟨hm1, hm2, hd1, hd2⟩]

/-- Row-level round trip: the rows `to_csv` writes parse back to the rows of
the original frame. -/
theorem parseRows_seriesCsv (s : PriceSeries) (hv : ∀ r ∈ s, validDate r.date) :
    parseRows ((seriesCsv s).rows) = some s := by
  induction s with
  | nil => rfl
  | cons r tl ih =>
    have hr : validDate r.date := hv r (by simp)
    have htl : parseRows ((seriesCsv tl).rows) = some tl :=
      ih (fun x hx => hv x (by simp [hx]))
    simp only [seriesCsv, List.map_cons, parseRows] at htl ⊢
    rw [parse_render r.date hr, htl]

/-! ## Claims -/

/-- C1 (amended): in every run whose baseline series (loaded, or replaced by
the bulk backfill) has pairwise-distinct dates, the written merged series is
strictly sorted ascending by date — in particular it has no duplicate dates.
(An aborted run writes nothing, so its date column is empty.) -/
theorem c1_sorted_of_nodup_baseline
    (remote : Except Unit PriceSeries) (localExists : Bool)
    (localRead : Except Unit PriceSeries) (apiKey : Option String)
    (histResp : Except Unit (Option (List (Nat × Rat)))) (today : Date)
    (currentResp : Except Unit (Option Rat)) (b : PriceSeries)
    (hb : baseline_series remote localExists localRead apiKey histResp = .ok b)
    (hnd : (datesOf b).Nodup) :
    List.Pairwise Date.lt
      (writtenDates (main remote localExists localRead apiKey histResp today currentResp)) := by
  unfold main
  rw [hb]
  match currentResp with
  | .error e => exact List.Pairwise.nil
  | .ok none => exact List.Pairwise.nil
  | .ok (some p) => exact merge_strict_sorted b ⟨today, p⟩ hnd

/-- C1 (counterexample): the bulk backfill does not deduplicate by calendar
date.  A response whose `prices` list carries two timestamps of the same UTC
day (here 1970-01-01T00:00:00Z and 1970-01-01T00:00:01Z) produces a baseline
with a duplicated date, and the run then writes a series whose date column is
not duplicate-free (hence not strictly sorted), contradicting the claim for
these valid inputs. -/
theorem c1_counterexample :
    writtenDates (main (.error ()) false (.error ()) (some "k")
        (.ok (some [(0, 100), (1000, 101)])) ⟨2024, 1, 2⟩ (.ok (some 102))) =
      [⟨1970, 1, 1⟩, ⟨1970, 1, 1⟩, ⟨2024, 1, 2⟩] ∧
    ¬ (writtenDates (main (.error ()) false (.error ()) (some "k")
        (.ok (some [(0, 100), (1000, 101)])) ⟨2024, 1, 2⟩ (.ok (some 102)))).Nodup := by
  exact ⟨by decide, by decide⟩

/-- C1 (witness): a concrete run with a distinct-dated baseline whose output
is strictly sorted. -/
theorem c1_witness :
    baseline_series (.ok [⟨⟨2024, 1, 1⟩, 40⟩]) false (.error ()) none (.error ()) =
      .ok [⟨⟨2024, 1, 1⟩, 40⟩] ∧
    (datesOf [(⟨⟨2024, 1, 1⟩, 40⟩ : PricePoint)]).Nodup ∧
    List.Pairwise Date.lt
      (writtenDates (main (.ok [⟨⟨2024, 1, 1⟩, 40⟩]) false (.error ()) none (.error ())
        ⟨2024, 1, 2⟩ (.ok (some 50)))) :=
  ⟨rfl, by decide,
    c1_sorted_of_nodup_baseline (.ok [⟨⟨2024, 1, 1⟩, 40⟩]) false (.error ()) none (.error ())
      ⟨2024, 1, 2⟩ (.ok (some 50)) [⟨⟨2024, 1, 1⟩, 40⟩] rfl (by decide)⟩

/-- C2 (amended): in the bulk-history fetch a transport, timeout or HTTP
status failure is recoverable — the fetch returns no backfill and the run
continues to completion — but a response whose JSON lacks the expected
`prices` shape raises an uncaught exception and aborts the process. -/
theorem c2_transport_recoverable_shape_fatal (k : String) (hk : k ≠ "")
    (today : Date) (p : Rat) :
    fetch_btc_history_coingecko_pro (some k) (.error ()) = .ok none ∧
    fetch_btc_history_coingecko_pro (some k) (.ok none) = .error .uncaught ∧
    exitCode (main (.error ()) false (.error ()) (some k) (.error ()) today
      (.ok (some p))) = 0 := by
  have hf : falsyKey (some k) = false := by simp [falsyKey, hk]
  refine ⟨?_, ?_, ?_⟩
  · simp [fetch_btc_history_coingecko_pro, hf]
  · simp [fetch_btc_history_coingecko_pro, hf]
  · unfold main baseline_series load_existing_data
    simp [fetch_btc_history_coingecko_pro, hf, fetch_current_btc_price, mergeSeries,
      dedupToday, sortByDate, exitCode]

/-- C2 (counterexample): a well-formed HTTP response whose JSON has an
unexpected shape (no usable `prices` list) does not degrade to "no
backfill": the `except` clause catches only `RequestException`, so the
`KeyError` escapes and the process aborts, unlike the transport-failure
case. -/
theorem c2_counterexample :
    fetch_btc_history_coingecko_pro (some "k") (.ok none) = .error .uncaught ∧
    main (.error ()) false (.error ()) (some "k") (.ok none) ⟨2024, 1, 2⟩
      (.ok (some 102)) = .error .uncaught :=
  ⟨rfl, rfl⟩

/-- C2 (witness): concrete instance of the amended claim at key `"k"`. -/
theorem c2_witness :
    fetch_btc_history_coingecko_pro (some "k") (.error ()) = .ok none ∧
    fetch_btc_history_coingecko_pro (some "k") (.ok none) = .error .uncaught ∧
    exitCode (main (.error ()) false (.error ()) (some "k") (.error ()) ⟨2024, 1, 2⟩
      (.ok (some 102))) = 0 :=
  c2_transport_recoverable_shape_fatal "k" (by decide) ⟨2024, 1, 2⟩ 102

/-- C3 (amended): incoming wins for the incoming frame the program actually
passes to the merge step — the single fetched point.  For every date `d`
present in both the existing series and that one-row incoming series, with
different prices, the merged result's price at `d` is the incoming price.
(For a hypothetical multi-row incoming frame only the first row's date is
deduplicated; see the counterexample.) -/
theorem c3_incoming_wins_single (existing : PriceSeries) (pt : PricePoint) (d : Date)
    (m : PriceSeries) (hm : mergeSeries existing [pt] = some m)
    (hdA : d ∈ datesOf existing) (hdB : d ∈ datesOf [pt])
    (hne : priceAt existing d ≠ priceAt [pt] d) :
    priceAt m d = priceAt [pt] d := by
  have hd : d = pt.date := by simpa [datesOf] using hdB
  subst hd
  rw [mergeSeries_single] at hm
  injection hm with hme
  subst hme
  unfold priceAt
  rw [merge_filter_eq]
  simp

/-- C3 (counterexample): on a two-row incoming frame the merge step of `main`
deduplicates only `df_today['date'].iloc[0]`.  At the shared date 2024-01-02
(not the first incoming date) both the existing row (price 20) and the
incoming row (price 21) survive into the result, so the merged price at that
date is not the incoming price. -/
theorem c3_counterexample :
    mergeSeries [⟨⟨2024, 1, 1⟩, 10⟩, ⟨⟨2024, 1, 2⟩, 20⟩]
        [⟨⟨2024, 1, 1⟩, 11⟩, ⟨⟨2024, 1, 2⟩, 21⟩] =
      some [⟨⟨2024, 1, 1⟩, 11⟩, ⟨⟨2024, 1, 2⟩, 20⟩, ⟨⟨2024, 1, 2⟩, 21⟩] ∧
    (⟨2024, 1, 2⟩ : Date) ∈ datesOf [⟨⟨2024, 1, 1⟩, 10⟩, ⟨⟨2024, 1, 2⟩, 20⟩] ∧
    (⟨2024, 1, 2⟩ : Date) ∈ datesOf [⟨⟨2024, 1, 1⟩, 11⟩, ⟨⟨2024, 1, 2⟩, 21⟩] ∧
    priceAt [⟨⟨2024, 1, 1⟩, 10⟩, ⟨⟨2024, 1, 2⟩, 20⟩] ⟨2024, 1, 2⟩ ≠
      priceAt [⟨⟨2024, 1, 1⟩, 11⟩, ⟨⟨2024, 1, 2⟩, 21⟩] ⟨2024, 1, 2⟩ ∧
    priceAt [⟨⟨2024, 1, 1⟩, 11⟩, ⟨⟨2024, 1, 2⟩, 20⟩, ⟨⟨2024, 1, 2⟩, 21⟩] ⟨2024, 1, 2⟩ ≠
      priceAt [⟨⟨2024, 1, 1⟩, 11⟩, ⟨⟨2024, 1, 2⟩, 21⟩] ⟨2024, 1, 2⟩ ∧
    (⟨⟨2024, 1, 2⟩, 20⟩ : PricePoint) ∈
      [⟨⟨2024, 1, 1⟩, 11⟩, ⟨⟨2024, 1, 2⟩, 20⟩, ⟨⟨2024, 1, 2⟩, 21⟩] ∧
    (⟨⟨2024, 1, 2⟩, 21⟩ : PricePoint) ∈
      [⟨⟨2024, 1, 1⟩, 11⟩, ⟨⟨2024, 1, 2⟩, 20⟩, ⟨⟨2024, 1, 2⟩, 21⟩] := by
  refine ⟨rfl, by decide, by decide, by decide, by decide, by decide, by decide⟩

/-- C3 (witness): the spec's own scenario — existing
[2024-01-01: 40000, 2024-01-02: 42000], incoming [2024-01-02: 42500] — where
incoming wins at the shared date. -/
theorem c3_witness :
    mergeSeries [⟨⟨2024, 1, 1⟩, 40000⟩, ⟨⟨2024, 1, 2⟩, 42000⟩] [⟨⟨2024, 1, 2⟩, 42500⟩] =
      some [⟨⟨2024, 1, 1⟩, 40000⟩, ⟨⟨2024, 1, 2⟩, 42500⟩] ∧
    (⟨2024, 1, 2⟩ : Date) ∈ datesOf [⟨⟨2024, 1, 1⟩, 40000⟩, ⟨⟨2024, 1, 2⟩, 42000⟩] ∧
    (⟨2024, 1, 2⟩ : Date) ∈ datesOf [(⟨⟨2024, 1, 2⟩, 42500⟩ : PricePoint)] ∧
    priceAt [⟨⟨2024, 1, 1⟩, 40000⟩, ⟨⟨2024, 1, 2⟩, 42000⟩] ⟨2024, 1, 2⟩ ≠
      priceAt [(⟨⟨2024, 1, 2⟩, 42500⟩ : PricePoint)] ⟨2024, 1, 2⟩ ∧
    priceAt [⟨⟨2024, 1, 1⟩, 40000⟩, ⟨⟨2024, 1, 2⟩, 42500⟩] ⟨2024, 1, 2⟩ =
      priceAt [(⟨⟨2024, 1, 2⟩, 42500⟩ : PricePoint)] ⟨2024, 1, 2⟩ :=
  ⟨rfl, by decide, by decide, by decide,
    c3_incoming_wins_single [⟨⟨2024, 1, 1⟩, 40000⟩, ⟨⟨2024, 1, 2⟩, 42000⟩]
      ⟨⟨2024, 1, 2⟩, 42500⟩ ⟨2024, 1, 2⟩ [⟨⟨2024, 1, 1⟩, 40000⟩, ⟨⟨2024, 1, 2⟩, 42500⟩]
      rfl (by decide) (by decide) (by decide)⟩

/-- C4 (amended): for every existing series `A` and every nonempty incoming
frame `B` the merge step produces a result whose date set is exactly the
union of the two date sets.  (On an empty `B` the step raises `IndexError`
at `df_today['date'].iloc[0]` instead of producing a result; see the
counterexample.  The program itself never passes an empty incoming frame.) -/
theorem c4_dates_union_nonempty (A B : PriceSeries) (hB : B ≠ []) :
    ∃ m, mergeSeries A B = some m ∧
      (datesOf m).toFinset = (datesOf A).toFinset ∪ (datesOf B).toFinset := by
  match B, hB with
  | hd :: tl, _ =>
    refine ⟨sortByDate (dedupToday A hd.date ++ (hd :: tl)), rfl, ?_⟩
    have hperm : List.Perm (datesOf (sortByDate (dedupToday A hd.date ++ (hd :: tl))))
        (datesOf (dedupToday A hd.date ++ (hd :: tl))) :=
      (List.perm_insertionSort byDate _).map _
    rw [List.toFinset_eq_of_perm _ _ hperm]
    have heq : datesOf (dedupToday A hd.date ++ (hd :: tl)) =
        datesOf (dedupToday A hd.date) ++ datesOf (hd :: tl) := by
      simp [datesOf]
    rw [heq, List.toFinset_append]
    ext d
    simp only [Finset.mem_union, List.mem_toFinset]
    constructor
    · rintro (hmem | hmem)
      · exact Or.inl ((mem_datesOf_dedupToday A hd.date d).mp hmem).1
      · exact Or.inr hmem
    · rintro (hmem | hmem)
      · by_cases hdt : d = hd.date
        · subst hdt
          exact Or.inr (by simp [datesOf])
        · exact Or.inl ((mem_datesOf_dedupToday A hd.date d).mpr ⟨hmem, hdt⟩)
      · exact Or.inr hmem

/-- C4 (counterexample): with an empty incoming frame the merge step of
`main` produces no result at all — `df_today['date'].iloc[0]` raises
`IndexError` — so the date-preservation equation has no left-hand side,
and the claim fails for the pair `([2024-01-01: 40000], [])`. -/
theorem c4_counterexample :
    ¬ ∃ m, mergeSeries [⟨⟨2024, 1, 1⟩, 40000⟩] [] = some m ∧
        (datesOf m).toFinset =
          (datesOf [(⟨⟨2024, 1, 1⟩, 40000⟩ : PricePoint)]).toFinset ∪
            (datesOf ([] : PriceSeries)).toFinset := by
  rintro ⟨m, hm, -⟩
  simp [mergeSeries] at hm

/-- C4 (witness): concrete instance of the amended claim. -/
theorem c4_witness :
    ∃ m, mergeSeries [⟨⟨2024, 1, 1⟩, 1⟩] [⟨⟨2024, 1, 2⟩, 2⟩] = some m ∧
      (datesOf m).toFinset =
        (datesOf [(⟨⟨2024, 1, 1⟩, 1⟩ : PricePoint)]).toFinset ∪
          (datesOf [(⟨⟨2024, 1, 2⟩, 2⟩ : PricePoint)]).toFinset :=
  c4_dates_union_nonempty [⟨⟨2024, 1, 1⟩, 1⟩] [⟨⟨2024, 1, 2⟩, 2⟩] (by decide)

/-- C5 (amended): the merge step is idempotent on the incoming shape the
program produces, a single-row frame: for every point `pt`,
`merge([pt], merge([pt], [pt])) = merge([pt], [pt])`.  (For a series with
two or more distinct dates the step duplicates rows instead; see the
counterexample.) -/
theorem c5_idempotent_single (pt : PricePoint) :
    (mergeSeries [pt] [pt]).bind (mergeSeries [pt]) = mergeSeries [pt] [pt] := by
  have h1 : mergeSeries [pt] [pt] = some [pt] := by
    simp [mergeSeries, dedupToday, sortByDate]
  rw [h1]
  simpa using h1

/-- C5 (counterexample): the merge step of `main` deduplicates only the
first incoming date, so on the two-row series
S = [2024-01-01: 1, 2024-01-02: 2] the inner merge `merge(S, S)` keeps the
second row twice (three rows), and the outer merge keeps it three times
(four rows): `merge(S, merge(S, S)) ≠ merge(S, S)`. -/
theorem c5_counterexample :
    (mergeSeries [⟨⟨2024, 1, 1⟩, 1⟩, ⟨⟨2024, 1, 2⟩, 2⟩]
        [⟨⟨2024, 1, 1⟩, 1⟩, ⟨⟨2024, 1, 2⟩, 2⟩]).bind
      (mergeSeries [⟨⟨2024, 1, 1⟩, 1⟩, ⟨⟨2024, 1, 2⟩, 2⟩]) ≠
    mergeSeries [⟨⟨2024, 1, 1⟩, 1⟩, ⟨⟨2024, 1, 2⟩, 2⟩]
      [⟨⟨2024, 1, 1⟩, 1⟩, ⟨⟨2024, 1, 2⟩, 2⟩] := by
  decide

/-- C6 (confirmed): when the current-point HTTP call fails with a transport
error the run terminates by `sys.exit(1)` (or, when an uncaught backfill
exception struck first, by that exception) — in every case the exit code is
non-zero and no output exists: no merged series, hence no dated CSV, no
`latest.csv` and no `index.html` were written, since all writes happen after
the merge.  (The status line printed on the way out is terminal glue outside
the model.) -/
theorem c6_transport_error_no_outputs (remote : Except Unit PriceSeries) (localExists : Bool)
    (localRead : Except Unit PriceSeries) (apiKey : Option String)
    (histResp : Except Unit (Option (List (Nat × Rat)))) (today : Date) :
    writtenSeries (main remote localExists localRead apiKey histResp today (.error ())) =
      none ∧
    exitCode (main remote localExists localRead apiKey histResp today (.error ())) = 1 := by
  unfold main
  cases hB : baseline_series remote localExists localRead apiKey histResp with
  | error a => simp [writtenSeries, exitCode]
  | ok b => simp [fetch_current_btc_price, writtenSeries, exitCode]

/-- C7 (confirmed): the loader falls through without surfacing errors — when
the remote read throws and the local file exists and parses to some rows,
`load_existing_data` returns exactly those rows.  The function is total (it
catches every exception of its attempts), so no error propagates; the empty
series is its final fallback. -/
theorem c7_loader_fallthrough (rows : PriceSeries) :
    load_existing_data (.error ()) true (.ok rows) = rows :=
  rfl

/-- C8 (confirmed): when the existing series loads as empty and the bulk
credential is absent, the backfill reports unavailable (`None`, not an
error), the run continues, and the written merged series is exactly the
single fetched current-day point. -/
theorem c8_empty_no_key_single_point (remote : Except Unit PriceSeries) (localExists : Bool)
    (localRead : Except Unit PriceSeries)
    (hload : load_existing_data remote localExists localRead = [])
    (histResp : Except Unit (Option (List (Nat × Rat)))) (today : Date) (p : Rat) :
    fetch_btc_history_coingecko_pro none histResp = .ok none ∧
    writtenSeries (main remote localExists localRead none histResp today (.ok (some p))) =
      some [⟨today, p⟩] := by
  refine ⟨rfl, ?_⟩
  unfold main baseline_series
  rw [hload]
  simp [fetch_btc_history_coingecko_pro, falsyKey, fetch_current_btc_price, mergeSeries,
    dedupToday, sortByDate, writtenSeries]

/-- C8 (witness): a concrete run with both load sources failing and no key. -/
theorem c8_witness :
    fetch_btc_history_coingecko_pro none (.error ()) = .ok none ∧
    writtenSeries (main (.error ()) false (.error ()) none (.error ()) ⟨2024, 1, 2⟩
      (.ok (some 50))) = some [⟨⟨2024, 1, 2⟩, 50⟩] :=
  c8_empty_no_key_single_point (.error ()) false (.error ()) rfl (.error ()) ⟨2024, 1, 2⟩ 50

/-- C9 (confirmed): CSV round trip.  Writing any series of valid dates in
the `date,price` format and parsing it back through the loader's parsing
yields the same series — same dates, same prices, same order — and a loader
whose first source reads that file returns it unchanged. -/
theorem c9_round_trip (s : PriceSeries) (localExists : Bool)
    (localRead : Except Unit PriceSeries) (hv : ∀ r ∈ s, validDate r.date) :
    parse_csv (seriesCsv s) = .ok s ∧
    load_existing_data (parse_csv (seriesCsv s)) localExists localRead = s := by
  have h2 := parseRows_seriesCsv s hv
  simp only [seriesCsv] at h2
  have h1 : parse_csv (seriesCsv s) = .ok s := by
    simp [parse_csv, seriesCsv, h2]
  refine ⟨h1, ?_⟩
  rw [h1]
  rfl

/-- C9 (witness): round trip of a concrete two-row series. -/
theorem c9_witness :
    parse_csv (seriesCsv [⟨⟨2024, 1, 1⟩, 40000⟩, ⟨⟨2024, 1, 2⟩, 42500⟩]) =
      .ok [⟨⟨2024, 1, 1⟩, 40000⟩, ⟨⟨2024, 1, 2⟩, 42500⟩] ∧
    load_existing_data
      (parse_csv (seriesCsv [⟨⟨2024, 1, 1⟩, 40000⟩, ⟨⟨2024, 1, 2⟩, 42500⟩])) false
      (.error ()) = [⟨⟨2024, 1, 1⟩, 40000⟩, ⟨⟨2024, 1, 2⟩, 42500⟩] :=
  c9_round_trip [⟨⟨2024, 1, 1⟩, 40000⟩, ⟨⟨2024, 1, 2⟩, 42500⟩] false (.error ())
    (by decide)

/-- C10 (confirmed): every run that completes writes a series holding
exactly one row dated with the run's current local date, priced at the
freshly fetched current price — even when the baseline already carried one
or more rows for that date, since the merge step removes them all before
appending the fetched point. -/
theorem c10_unique_today_row (remote : Except Unit PriceSeries) (localExists : Bool)
    (localRead : Except Unit PriceSeries) (apiKey : Option String)
    (histResp : Except Unit (Option (List (Nat × Rat)))) (today : Date) (p : Rat)
    (s : PriceSeries)
    (hs : writtenSeries (main remote localExists localRead apiKey histResp today
      (.ok (some p))) = some s) :
    s.filter (fun r => decide (r.date = today)) = [⟨today, p⟩] := by
  unfold main at hs
  cases hB : baseline_series remote localExists localRead apiKey histResp with
  | error a =>
    rw [hB] at hs
    simp [writtenSeries] at hs
  | ok b =>
    rw [hB] at hs
    have hseq : sortByDate (dedupToday b today ++ [⟨today, p⟩]) = s := by
      simpa [writtenSeries, fetch_current_btc_price, mergeSeries, save_csv] using hs
    rw [← hseq]
    exact merge_filter_eq b ⟨today, p⟩

/-- C10 (witness): concrete completed run, with its single today row. -/
theorem c10_witness :
    writtenSeries (main (.error ()) true (.ok [⟨⟨2024, 1, 2⟩, 47⟩]) none (.error ())
      ⟨2024, 1, 2⟩ (.ok (some 50))) = some [⟨⟨2024, 1, 2⟩, 50⟩] ∧
    ([(⟨⟨2024, 1, 2⟩, 50⟩ : PricePoint)]).filter
      (fun r => decide (r.date = (⟨2024, 1, 2⟩ : Date))) = [⟨⟨2024, 1, 2⟩, 50⟩] :=
  ⟨rfl, c10_unique_today_row (.error ()) true (.ok [⟨⟨2024, 1, 2⟩, 47⟩]) none (.error ())
    ⟨2024, 1, 2⟩ 50 [⟨⟨2024, 1, 2⟩, 50⟩] rfl⟩

end BtcSpot
